import Mathlib

/-!
Verification of the recordr audio capture / VAD / segmentation pipeline
(`src-tauri/src/audio/`).  The Rust sources are shallowly embedded: pure
computations become Lean functions on `Nat` / `Int` / `List`, stateful
callback code becomes explicit state-passing step functions, and fallible
slicing is made explicit with `Option` (a `none` models a Rust panic).
-/

namespace Recordr

/-- RecordingState from `audio/config.rs`: `enum RecordingState { Idle, Recording, Paused }`. -/
inductive RecordingState where
  | Idle
  | Recording
  | Paused
deriving DecidableEq, Repr, Fintype

/-- AutoRecordState.start_recording from `audio/auto_record.rs`.  The Rust method
mutates `self.state` and returns `Ok(())`, or returns `Err(msg)` leaving the state
unchanged; we return the post-state together with the optional error message. -/
def start_recording (s : RecordingState) : RecordingState × Option String :=
  match s with
  | .Idle => (.Recording, none)
  | _ => (s, some "Can only start recording from Idle state")

/-- AutoRecordState.pause_recording from `audio/auto_record.rs`. -/
def pause_recording (s : RecordingState) : RecordingState × Option String :=
  match s with
  | .Recording => (.Paused, none)
  | _ => (s, some "Can only pause from Recording state")

/-- AutoRecordState.resume_recording from `audio/auto_record.rs`. -/
def resume_recording (s : RecordingState) : RecordingState × Option String :=
  match s with
  | .Paused => (.Recording, none)
  | _ => (s, some "Can only resume from Paused state")

/-- AutoRecordState.stop_recording from `audio/auto_record.rs`. -/
def stop_recording (s : RecordingState) : RecordingState × Option String :=
  match s with
  | .Recording => (.Idle, none)
  | .Paused => (.Idle, none)
  | _ => (s, some "Can only stop from Recording or Paused state")

/-- get_chunk_size from `audio/stream.rs`:
`(sample_rate as f32 / 31.25).round()` then `((chunk_size + 255) / 256) * 256`.
The float computation is embedded exactly in integer arithmetic:
`sample_rate / 31.25 = 8 * sample_rate / 250` as a rational, and Rust `round`
(half away from zero, here half up since the value is nonnegative) of `a / b`
is `(2 * a + b) / (2 * b)` in integer division. -/
def get_chunk_size (sample_rate : Nat) : Nat :=
  let chunk_size := (8 * sample_rate + 125) / 250
  ((chunk_size + 255) / 256) * 256

/-- AudioChunkWithVAD from `audio/config.rs`: one classified frame, its
samples (`Vec<i16>`, embedded as `List Int`) and its voice tag. -/
structure AudioChunkWithVAD where
  chunk : List Int
  is_voice : Bool
deriving DecidableEq, Repr

/-- Rust `Iterator::position`: index of the first element satisfying `p`. -/
def position? (p : α → Bool) : List α → Option Nat
  | [] => none
  | a :: l => if p a then some 0 else (position? p l).map (· + 1)

/-- Rust `Iterator::rposition`: index of the last element satisfying `p`. -/
def rposition? (p : α → Bool) : List α → Option Nat
  | [] => none
  | a :: l =>
    match rposition? p l with
    | some i => some (i + 1)
    | none => if p a then some 0 else none

/-- Rust slice indexing `l[a..b]`; `none` models the panic when `a > b` or
`b > l.length`. -/
def slice_range (l : List α) (a b : Nat) : Option (List α) :=
  if a ≤ b ∧ b ≤ l.length then some ((l.drop a).take (b - a)) else none

/-- start_index computed in write_trimmed_audio (`audio/stream.rs`):
`chunks.iter().position(is_voice).unwrap_or(0).saturating_sub(1)`. -/
def trim_start_index (chunks : List AudioChunkWithVAD) : Nat :=
  ((position? (fun c => c.is_voice) chunks).getD 0) - 1

/-- end_index computed in write_trimmed_audio (`audio/stream.rs`):
`chunks.iter().rposition(is_voice).map(|i| (i+1).min(len-1)).unwrap_or(len.saturating_sub(1))`. -/
def trim_end_index (chunks : List AudioChunkWithVAD) : Nat :=
  match rposition? (fun c => c.is_voice) chunks with
  | some i => min (i + 1) (chunks.length - 1)
  | none => chunks.length - 1

/-- write_trimmed_audio from `audio/stream.rs`.  `padding_samples` is the value
the source computes as `(silence_padding.as_secs_f32() * sample_rate as f32) as usize`
and `chunk_size` is `get_chunk_size sample_rate`; both are taken as parameters.
The returned value is the sequence of samples passed to `writer.write_sample`
(the WAV writer itself is modelled as infallible); `some []` is the early
return on invalid indices, and `none` would be an out-of-bounds slice panic. -/
def write_trimmed_audio (padding_samples chunk_size : Nat)
    (chunks : List AudioChunkWithVAD) : Option (List Int) :=
  let start_index := trim_start_index chunks
  let end_index := trim_end_index chunks
  if start_index ≥ chunks.length ∨ end_index ≥ chunks.length ∨ start_index > end_index then
    some []
  else
    match slice_range chunks (start_index - padding_samples / chunk_size) start_index,
          slice_range chunks start_index (end_index + 1),
          slice_range chunks (end_index + 1)
            (min (end_index + 1 + padding_samples / chunk_size) chunks.length) with
    | some pre, some speech, some post =>
        some (((pre ++ speech) ++ post).flatMap (fun c => c.chunk))
    | _, _, _ => none

/-- Shared timing state of the segmentation engine (`is_speaking` and
`last_active_time` in AutoRecordState, `audio/auto_record.rs`), together with
the single-slot voice signal (`voice_tx` in `audio/stream.rs`); times are in
milliseconds. `voice_signaled` records whether `voice_tx.try_send` was ever
reached. -/
structure VadShared where
  last_active_time : Nat
  is_speaking : Bool
  voice_signaled : Bool
deriving DecidableEq, Repr

/-- handle_voice_detected from `audio/stream.rs`, composed with its caller
process_audio_chunk, which computes `elapsed = now - last_active_time` before
the call.  The handler resets `last_active_time` to `now` and, if the elapsed
time since the previous reset was at least 200 ms, sets `is_speaking` and
sends the voice signal. -/
def handle_voice_detected (s : VadShared) (now : Nat) : VadShared :=
  let elapsed := now - s.last_active_time
  { last_active_time := now
    is_speaking := if 200 ≤ elapsed then true else s.is_speaking
    voice_signaled := s.voice_signaled || decide (200 ≤ elapsed) }

/-- Processes a run of consecutive voice-classified frames arriving at the
given timestamps (what process_audio_chunk does on each voice frame). -/
def run_voice_burst (s : VadShared) (ts : List Nat) : VadShared :=
  ts.foldl handle_voice_detected s

/-- Decides whether every frame timestamp in the list arrives strictly less
than `bound` ms after the previous `last_active_time` reset (`prev` is the
reset time before the first frame; each voice frame resets it). -/
def gaps_below (bound : Nat) : Nat → List Nat → Bool
  | _, [] => true
  | prev, t :: ts => (decide (t - prev < bound)) && gaps_below bound t ts

/-- Engine state relevant to handle_silence_detected: the shared
`is_speaking` flag and the number of times write_trimmed_audio has run. -/
structure SpeakState where
  is_speaking : Bool
  writes : Nat
deriving DecidableEq, Repr

/-- handle_silence_detected from `audio/stream.rs`: on a silence frame with
`elapsed` ms since the last voice frame, if `elapsed >= silence_duration` and
`is_speaking`, clear `is_speaking` and run write_trimmed_audio (counted in
`writes`); otherwise leave the state alone. -/
def handle_silence_detected (silence_duration : Nat) (s : SpeakState) (elapsed : Nat) :
    SpeakState :=
  if silence_duration ≤ elapsed then
    if s.is_speaking then { is_speaking := false, writes := s.writes + 1 } else s
  else s

/-- Processes a run of consecutive silence-classified frames with the given
elapsed-since-last-voice times. -/
def run_silence (silence_duration : Nat) (s : SpeakState) (es : List Nat) : SpeakState :=
  es.foldl (handle_silence_detected silence_duration) s

/-- Side effects performed by `impl Drop for RecordingSession`
(`audio/recording_session.rs`). -/
inductive TeardownAction where
  | CloseStream
  | FlushWriter
  | DeleteFile
deriving DecidableEq, Repr, Fintype

/-- Drop for RecordingSession from `audio/recording_session.rs`, as the ordered
list of actions it performs: drop the stream if present, flush the writer, and
remove the WAV file only when the recording state is Idle. -/
def recording_session_drop (state : RecordingState) (has_stream : Bool) :
    List TeardownAction :=
  (if has_stream then [TeardownAction.CloseStream] else []) ++
    [TeardownAction.FlushWriter] ++
    (if state = RecordingState.Idle then [TeardownAction.DeleteFile] else [])

/-- Whether the WAV file still exists after the session teardown runs
(the file existed before iff `existed`). -/
def file_exists_after_drop (state : RecordingState) (existed : Bool) : Bool :=
  existed && !((recording_session_drop state true).contains TeardownAction.DeleteFile)

/-- Chunk-draining loop of the input callbacks in build_audio_stream
(`audio/stream.rs`): `while buffer.len() >= chunk_size { drain chunk_size }`.
`fuel` bounds the number of iterations; the callback passes the buffer length,
which suffices because every iteration consumes `chunk_size ≥ 1` samples. -/
def drain_chunks_aux (chunk_size fuel : Nat) (buf : List Int) :
    List (List Int) × List Int :=
  match fuel with
  | 0 => ([], buf)
  | fuel + 1 =>
    if chunk_size ≤ buf.length ∧ 0 < chunk_size then
      let r := drain_chunks_aux chunk_size fuel (buf.drop chunk_size)
      (buf.take chunk_size :: r.1, r.2)
    else ([], buf)

/-- One device-callback delivery (`audio/stream.rs`, build_audio_stream input
callbacks): the incoming `data` is appended to the persistent `data_buffer`,
then full `chunk_size` frames are drained and handed to process_audio_chunk.
Returns the frames processed during this delivery and the remaining buffer. -/
def device_callback (chunk_size : Nat) (data_buffer data : List Int) :
    List (List Int) × List Int :=
  let buf := data_buffer ++ data
  drain_chunks_aux chunk_size buf.length buf

/-- handle_paused_recording from `audio/recorder.rs`: poll the recording state
(one list element per 100 ms poll) until it is no longer Paused; Idle returns
false (exit the loop), Recording returns true (retry the sentence).  `none`
models a poll sequence that never leaves Paused. -/
def handle_paused_recording : List RecordingState → Option Bool
  | [] => none
  | s :: polls =>
    match s with
    | RecordingState.Idle => some false
    | RecordingState.Recording => some true
    | RecordingState.Paused => handle_paused_recording polls

/-- Outcome of record_sentence as matched in run_auto_record
(`audio/recorder.rs`): Ok, Err(RecordingPaused), or Err(_) / RecordingStopped
(both of which break the loop). -/
inductive SentenceOutcome where
  | success
  | paused
  | stopped
deriving DecidableEq, Repr

/-- Effect of one iteration of the run_auto_record loop (`audio/recorder.rs`)
on `current_sentence_index`, plus whether the loop continues: success runs
handle_successful_recording (which increments the index); RecordingPaused runs
handle_paused_recording without touching the index; other errors break. -/
def loop_iteration (idx : Nat) (outcome : SentenceOutcome)
    (polls : List RecordingState) : Nat × Bool :=
  match outcome with
  | .success => (idx + 1, true)
  | .paused => (idx, (handle_paused_recording polls).getD false)
  | .stopped => (idx, false)

/-- Sentence from `models.rs`. -/
structure Sentence where
  id : Nat
  text : String
  recorded : Bool
  audio_file_path : Option String
deriving DecidableEq, Repr

/-- AudioConfig from `audio/config.rs`, reduced to the field the recorder
logic consumes (the device and stream handles are hardware objects). -/
structure AudioConfig where
  sample_rate : Nat
deriving DecidableEq, Repr

/-- AutoRecordState from `audio/auto_record.rs`.  `silence_threshold` (an
`f32` the pipeline never consumes) is embedded as `Rat`; durations are in
milliseconds; `last_active_time` is a millisecond timestamp. -/
structure AutoRecordState where
  sentences : List Sentence
  project_directory : String
  silence_threshold : Rat
  silence_duration : Nat
  silence_padding : Nat
  current_sentence_index : Nat
  audio_config : AudioConfig
  state : RecordingState
  is_speaking : Bool
  last_active_time : Nat
deriving DecidableEq, Repr

/-- AutoRecordStateBuilder from `audio/auto_record.rs`. -/
structure AutoRecordStateBuilder where
  sentences : Option (List Sentence)
  project_directory : Option String
  silence_threshold : Option Rat
  silence_duration : Option Nat
  silence_padding : Option Nat
  audio_config : Option AudioConfig
deriving DecidableEq, Repr

/-- AutoRecordStateBuilder::new. -/
def AutoRecordStateBuilder.new : AutoRecordStateBuilder :=
  ⟨none, none, none, none, none, none⟩

/-- AutoRecordStateBuilder::sentences. -/
def AutoRecordStateBuilder.set_sentences (b : AutoRecordStateBuilder)
    (sentences : List Sentence) : AutoRecordStateBuilder :=
  { b with sentences := some sentences }

/-- AutoRecordStateBuilder::project_directory. -/
def AutoRecordStateBuilder.set_project_directory (b : AutoRecordStateBuilder)
    (d : String) : AutoRecordStateBuilder :=
  { b with project_directory := some d }

/-- AutoRecordStateBuilder::silence_threshold. -/
def AutoRecordStateBuilder.set_silence_threshold (b : AutoRecordStateBuilder)
    (t : Rat) : AutoRecordStateBuilder :=
  { b with silence_threshold := some t }

/-- AutoRecordStateBuilder::silence_duration (takes milliseconds). -/
def AutoRecordStateBuilder.set_silence_duration (b : AutoRecordStateBuilder)
    (ms : Nat) : AutoRecordStateBuilder :=
  { b with silence_duration := some ms }

/-- AutoRecordStateBuilder::silence_padding (takes milliseconds). -/
def AutoRecordStateBuilder.set_silence_padding (b : AutoRecordStateBuilder)
    (ms : Nat) : AutoRecordStateBuilder :=
  { b with silence_padding := some ms }

/-- AutoRecordStateBuilder::audio_config. -/
def AutoRecordStateBuilder.set_audio_config (b : AutoRecordStateBuilder)
    (c : AudioConfig) : AutoRecordStateBuilder :=
  { b with audio_config := some c }

/-- Rust `Option::ok_or` followed by `?`. -/
def ok_or (o : Option α) (msg : String) : Except String α :=
  match o with
  | some a => .ok a
  | none => .error msg

/-- AutoRecordStateBuilder::build from `audio/auto_record.rs`: fails on any
missing field, otherwise produces a state in Idle with sentence index 0,
`is_speaking = false` and `last_active_time = Instant::now()` (the caller's
current time `now`). -/
def AutoRecordStateBuilder.build (b : AutoRecordStateBuilder) (now : Nat) :
    Except String AutoRecordState := do
  let s ← ok_or b.sentences "Sentences not set"
  let d ← ok_or b.project_directory "Project directory not set"
  let th ← ok_or b.silence_threshold "Silence threshold not set"
  let dur ← ok_or b.silence_duration "Silence duration not set"
  let pad ← ok_or b.silence_padding "Silence padding not set"
  let cfg ← ok_or b.audio_config "Audio config not set"
  .ok { sentences := s, project_directory := d, silence_threshold := th,
        silence_duration := dur, silence_padding := pad,
        current_sentence_index := 0, audio_config := cfg,
        state := RecordingState.Idle, is_speaking := false,
        last_active_time := now }

/-- Recorder from `audio/recorder.rs`, reduced to the auto-record tracking
field (the plain-recording writer is independent of auto-record). -/
structure Recorder where
  auto_record_state : Option AutoRecordState
deriving DecidableEq, Repr

/-- Recorder::start_auto_record from `audio/recorder.rs`: builds a fresh
AutoRecordState through the builder (all fields set, so build cannot fail),
stores it as the tracked state, and transitions it Idle → Recording.  The
negotiated audio config and the current time are parameters (in the source
they come from create_audio_config and Instant::now()).  The previous tracked
state, if any, is simply replaced; its worker thread keeps its own Arc. -/
def Recorder.start_auto_record (_r : Recorder) (sentences : List Sentence)
    (project_directory : String) (silence_threshold : Rat)
    (silence_duration_ms silence_padding_ms : Nat) (audio_config : AudioConfig)
    (now : Nat) : Except String Recorder := do
  let st ← ((((((AutoRecordStateBuilder.new.set_sentences sentences).set_project_directory
      project_directory).set_silence_threshold silence_threshold).set_silence_duration
      silence_duration_ms).set_silence_padding silence_padding_ms).set_audio_config
      audio_config).build now
  let t := start_recording st.state
  match t.2 with
  | some e => .error e
  | none => .ok { auto_record_state := some { st with state := t.1 } }

/-- Recorder::pause_auto_record from `audio/recorder.rs`: acts on the
currently tracked state only. -/
def Recorder.pause_auto_record (r : Recorder) : Except String Recorder :=
  match r.auto_record_state with
  | none => .error "No auto-recording in progress"
  | some st =>
    let t := pause_recording st.state
    match t.2 with
    | some e => .error e
    | none => .ok { auto_record_state := some { st with state := t.1 } }

/-- Recorder::resume_auto_record from `audio/recorder.rs`. -/
def Recorder.resume_auto_record (r : Recorder) : Except String Recorder :=
  match r.auto_record_state with
  | none => .error "No auto-recording in progress"
  | some st =>
    let t := resume_recording st.state
    match t.2 with
    | some e => .error e
    | none => .ok { auto_record_state := some { st with state := t.1 } }

/-- Concrete utterance buffer used to exercise the trimming routine:
two silence frames, one voice frame, two silence frames, with pairwise
distinct sample payloads. -/
def c1_example_chunks : List AudioChunkWithVAD :=
  [⟨[0], false⟩, ⟨[1], false⟩, ⟨[2], true⟩, ⟨[3], false⟩, ⟨[4], false⟩]

/-- The state Recorder::start_auto_record leaves tracked: the builder's output
with the Idle → Recording transition applied. -/
def fresh_auto_record_state (sentences : List Sentence) (dir : String)
    (th : Rat) (dur pad : Nat) (cfg : AudioConfig) (now : Nat) : AutoRecordState :=
  { sentences := sentences, project_directory := dir, silence_threshold := th,
    silence_duration := dur, silence_padding := pad, current_sentence_index := 0,
    audio_config := cfg, state := RecordingState.Recording, is_speaking := false,
    last_active_time := now }

/-! Theorems. -/

/-- C4: for every sample rate, the classifier chunk size is
`round(sample_rate / 31.25)` (= `(8*rate+125)/250` exactly) rounded up to the
next multiple of 256, and the five reference rates give exactly the five
reference sizes. -/
theorem c4_chunk_size :
    get_chunk_size 8000 = 256 ∧ get_chunk_size 16000 = 512 ∧
    get_chunk_size 32000 = 1024 ∧ get_chunk_size 48000 = 1536 ∧
    get_chunk_size 44100 = 1536 ∧
    ∀ r : Nat, 256 ∣ get_chunk_size r ∧ (8 * r + 125) / 250 ≤ get_chunk_size r ∧
      get_chunk_size r < (8 * r + 125) / 250 + 256 := by
  refine ⟨by norm_num [get_chunk_size], by norm_num [get_chunk_size],
    by norm_num [get_chunk_size], by norm_num [get_chunk_size],
    by norm_num [get_chunk_size], ?_⟩
  intro r
  have h1 := Nat.div_add_mod ((8 * r + 125) / 250 + 255) 256
  have h2 : ((8 * r + 125) / 250 + 255) % 256 < 256 := Nat.mod_lt _ (by norm_num)
  refine ⟨⟨((8 * r + 125) / 250 + 255) / 256, ?_⟩, ?_, ?_⟩ <;>
    simp only [get_chunk_size] <;> omega

/-- C5: the recording state machine admits exactly the transitions
start (Idle→Recording), pause (Recording→Paused), resume (Paused→Recording)
and stop (Recording|Paused→Idle); every other attempted transition returns an
error naming the attempted operation and leaves the state unchanged. -/
theorem c5_state_machine :
    start_recording .Idle = (.Recording, none) ∧
    pause_recording .Recording = (.Paused, none) ∧
    resume_recording .Paused = (.Recording, none) ∧
    stop_recording .Recording = (.Idle, none) ∧
    stop_recording .Paused = (.Idle, none) ∧
    start_recording .Recording =
      (.Recording, some "Can only start recording from Idle state") ∧
    start_recording .Paused =
      (.Paused, some "Can only start recording from Idle state") ∧
    pause_recording .Idle = (.Idle, some "Can only pause from Recording state") ∧
    pause_recording .Paused = (.Paused, some "Can only pause from Recording state") ∧
    resume_recording .Idle = (.Idle, some "Can only resume from Paused state") ∧
    resume_recording .Recording =
      (.Recording, some "Can only resume from Paused state") ∧
    stop_recording .Idle = (.Idle, some "Can only stop from Recording or Paused state") :=
  ⟨rfl, rfl, rfl, rfl, rfl, rfl, rfl, rfl, rfl, rfl, rfl, rfl⟩

/-- C2 fails on the code: after a pause mid-sentence the session teardown does
NOT delete the partial WAV file — `Drop for RecordingSession` removes the file
only when the recording state is Idle, and after a pause the state is Paused,
so the file still exists after teardown. -/
theorem c2_counterexample :
    (recording_session_drop RecordingState.Paused true).contains
      TeardownAction.DeleteFile = false ∧
    file_exists_after_drop RecordingState.Paused true = true := by
  decide

/-- C2 amended: the teardown always flushes the writer, closes the stream
before any deletion, and deletes the partial WAV file exactly when the
recording state is Idle (stop); after a pause the flushed partial file
remains on disk. -/
theorem c2_teardown :
    ∀ (st : RecordingState) (hs : Bool),
      ((recording_session_drop st hs).contains TeardownAction.DeleteFile =
        decide (st = RecordingState.Idle)) ∧
      ((recording_session_drop st hs).contains TeardownAction.FlushWriter = true) ∧
      ((recording_session_drop st true).findIdx
          (fun a => a == TeardownAction.CloseStream) <
        (recording_session_drop st true).findIdx
          (fun a => a == TeardownAction.DeleteFile)) ∧
      ((recording_session_drop st true).findIdx
          (fun a => a == TeardownAction.FlushWriter) <
        (recording_session_drop st true).findIdx
          (fun a => a == TeardownAction.DeleteFile)) ∧
      file_exists_after_drop RecordingState.Idle true = false ∧
      file_exists_after_drop RecordingState.Paused true = true := by
  decide

/-- Silence frames never touch a non-speaking engine. -/
theorem run_silence_not_speaking (dur w : Nat) (es : List Nat) :
    run_silence dur ⟨false, w⟩ es = ⟨false, w⟩ := by
  induction es with
  | nil => rfl
  | cons e es ih =>
    simp only [run_silence, List.foldl_cons] at *
    simpa [handle_silence_detected] using ih

/-- C6: once speaking, a run of silence frames triggers the Done transition
and the trimmed write exactly once — precisely when some frame's elapsed time
reaches `silence_duration` — and later silence frames never write again. -/
theorem c6_silence_once :
    ∀ (silence_duration : Nat) (es : List Nat),
      run_silence silence_duration ⟨true, 0⟩ es =
        if es.any (fun e => decide (silence_duration ≤ e)) then ⟨false, 1⟩
        else ⟨true, 0⟩ := by
  intro dur es
  suffices h : ∀ w : Nat, run_silence dur ⟨true, w⟩ es =
      if es.any (fun e => decide (dur ≤ e)) then ⟨false, w + 1⟩ else ⟨true, w⟩ from h 0
  induction es with
  | nil => intro w; rfl
  | cons e es ih =>
    intro w
    by_cases h : dur ≤ e
    · simp only [run_silence, List.foldl_cons, handle_silence_detected, if_pos h,
        List.any_cons, decide_eq_true h, Bool.true_or, if_pos]
      exact run_silence_not_speaking dur (w + 1) es
    · simp only [run_silence, List.foldl_cons, handle_silence_detected, if_neg h,
        List.any_cons, decide_eq_false h, Bool.false_or] at *
      exact ih w

/-- C8: when record_sentence ends with RecordingPaused, the controller polls
the state until it leaves Paused — Idle exits the per-sentence loop, Recording
retries the same sentence — and `current_sentence_index` is unchanged by the
pause, being incremented only on success. -/
theorem c8_paused_retry :
    ∀ (idx : Nat) (polls : List RecordingState),
      handle_paused_recording polls =
        (polls.find? (fun s => !(s == RecordingState.Paused))).map
          (fun s => s == RecordingState.Recording) ∧
      (loop_iteration idx SentenceOutcome.paused polls).1 = idx ∧
      (loop_iteration idx SentenceOutcome.success polls).1 = idx + 1 ∧
      (loop_iteration idx SentenceOutcome.paused
        (RecordingState.Recording :: polls)).2 = true ∧
      (loop_iteration idx SentenceOutcome.paused
        (RecordingState.Idle :: polls)).2 = false := by
  intro idx polls
  refine ⟨?_, rfl, rfl, rfl, rfl⟩
  induction polls with
  | nil => rfl
  | cons s polls ih =>
    cases s <;> first | rfl | exact ih

/-- Boolean characterisation of a voice burst: `is_speaking` and the voice
signal flip exactly when some frame arrives at least 200 ms after the
previous `last_active_time` reset. -/
theorem run_voice_burst_eq (s : VadShared) (ts : List Nat) :
    (run_voice_burst s ts).is_speaking =
      (s.is_speaking || !(gaps_below 200 s.last_active_time ts)) ∧
    (run_voice_burst s ts).voice_signaled =
      (s.voice_signaled || !(gaps_below 200 s.last_active_time ts)) := by
  induction ts generalizing s with
  | nil => simp [run_voice_burst, gaps_below]
  | cons t ts ih =>
    by_cases hg : 200 ≤ t - s.last_active_time
    · have hstep : handle_voice_detected s t = ⟨t, true, true⟩ := by
        simp [handle_voice_detected, hg]
      have h := ih (⟨t, true, true⟩ : VadShared)
      have hgap : gaps_below 200 s.last_active_time (t :: ts) = false := by
        have hlt : ¬ (t - s.last_active_time < 200) := by omega
        simp [gaps_below, hlt]
      simp only [run_voice_burst, List.foldl_cons, hstep] at h ⊢
      rw [hgap]
      simp only [Bool.not_false, Bool.or_true]
      exact ⟨by rw [h.1]; simp, by rw [h.2]; simp⟩
    · have hstep : handle_voice_detected s t = ⟨t, s.is_speaking, s.voice_signaled⟩ := by
        simp [handle_voice_detected, hg]
      have h := ih (⟨t, s.is_speaking, s.voice_signaled⟩ : VadShared)
      have hlt : t - s.last_active_time < 200 := by omega
      have hgap : gaps_below 200 s.last_active_time (t :: ts) = gaps_below 200 t ts := by
        simp [gaps_below, hlt]
      simp only [run_voice_burst, List.foldl_cons, hstep] at h ⊢
      rw [hgap]
      exact h

/-- C3: a run of voice frames each arriving less than 200 ms after the
previous `last_active_time` reset leaves `is_speaking` and the voice signal
untouched; a run in which some frame reaches 200 ms elapsed-since-reset sets
`is_speaking` and emits the signal; and every voice frame resets
`last_active_time` to its own arrival time. -/
theorem c3_grace_period (s : VadShared) (ts : List Nat) :
    (gaps_below 200 s.last_active_time ts = true →
      (run_voice_burst s ts).is_speaking = s.is_speaking ∧
      (run_voice_burst s ts).voice_signaled = s.voice_signaled) ∧
    (gaps_below 200 s.last_active_time ts = false →
      (run_voice_burst s ts).is_speaking = true ∧
      (run_voice_burst s ts).voice_signaled = true) ∧
    (∀ t : Nat, (run_voice_burst s (ts ++ [t])).last_active_time = t) := by
  have h := run_voice_burst_eq s ts
  refine ⟨fun hg => ?_, fun hg => ?_, fun t => ?_⟩
  · rw [hg] at h; simpa using h
  · rw [hg] at h; simpa using h
  · simp [run_voice_burst, List.foldl_append, handle_voice_detected]

/-- Witness for C3 at a concrete input: frames at 100 ms and 350 ms after a
reset at time 0 (the second gap is 250 ms ≥ 200 ms) trigger speaking and the
signal; frames at 100 ms and 180 ms (gaps 100 ms and 80 ms) trigger
neither. -/
theorem c3_grace_period_witness :
    gaps_below 200 0 [100, 350] = false ∧
    (run_voice_burst ⟨0, false, false⟩ [100, 350]).is_speaking = true ∧
    (run_voice_burst ⟨0, false, false⟩ [100, 350]).voice_signaled = true ∧
    gaps_below 200 0 [100, 180] = true ∧
    (run_voice_burst ⟨0, false, false⟩ [100, 180]).is_speaking = false ∧
    (run_voice_burst ⟨0, false, false⟩ [100, 350, 400]).last_active_time = 400 := by
  have h1 := c3_grace_period ⟨0, false, false⟩ [100, 350]
  have h2 := c3_grace_period ⟨0, false, false⟩ [100, 180]
  refine ⟨by decide, (h1.2.1 (by decide)).1, (h1.2.1 (by decide)).2, by decide, ?_, ?_⟩
  · have := (h2.1 (by decide)).1
    simpa using this
  · exact h1.2.2 400

/-- C10: calling start_auto_record while a previous run is still tracked
returns no error: the result is identical to starting from an untracked
recorder — a fresh state is built in Idle, transitioned to Recording, and
replaces the tracked state — and a subsequent pause acts on that newest
state. -/
theorem c10_start_while_active :
    ∀ (prev : AutoRecordState) (sentences : List Sentence) (dir : String)
      (th : Rat) (dur pad : Nat) (cfg : AudioConfig) (now : Nat),
      Recorder.start_auto_record ⟨some prev⟩ sentences dir th dur pad cfg now =
        Recorder.start_auto_record ⟨none⟩ sentences dir th dur pad cfg now ∧
      ∃ st : AutoRecordState,
        Recorder.start_auto_record ⟨some prev⟩ sentences dir th dur pad cfg now =
          .ok ⟨some st⟩ ∧
        st.state = RecordingState.Recording ∧
        st.current_sentence_index = 0 ∧
        Recorder.pause_auto_record ⟨some st⟩ =
          .ok ⟨some { st with state := RecordingState.Paused }⟩ := by
  intro prev sentences dir th dur pad cfg now
  exact ⟨rfl, ⟨fresh_auto_record_state sentences dir th dur pad cfg now,
    rfl, rfl, rfl, rfl⟩⟩

/-- Invariant of the chunk-draining loop: it produces only full
`chunk_size`-sample frames, loses and duplicates nothing, and leaves fewer
than `chunk_size` samples in the buffer. -/
theorem drain_chunks_aux_spec (chunk_size : Nat) (hcs : 0 < chunk_size) :
    ∀ (fuel : Nat) (buf : List Int), buf.length ≤ fuel →
      (∀ c ∈ (drain_chunks_aux chunk_size fuel buf).1, c.length = chunk_size) ∧
      (drain_chunks_aux chunk_size fuel buf).1.flatten ++
        (drain_chunks_aux chunk_size fuel buf).2 = buf ∧
      (drain_chunks_aux chunk_size fuel buf).2.length < chunk_size := by
  intro fuel
  induction fuel with
  | zero =>
    intro buf hlen
    have hnil : buf = [] := List.eq_nil_of_length_eq_zero (Nat.le_zero.mp hlen)
    subst hnil
    simpa [drain_chunks_aux] using hcs
  | succ fuel ih =>
    intro buf hlen
    by_cases h : chunk_size ≤ buf.length ∧ 0 < chunk_size
    · have hrec := ih (buf.drop chunk_size) (by simp; omega)
      simp only [drain_chunks_aux, if_pos h]
      refine ⟨?_, ?_, hrec.2.2⟩
      · intro c hc
        rcases List.mem_cons.mp hc with hc | hc
        · subst hc; simp [List.length_take]; omega
        · exact hrec.1 c hc
      · simp only [List.flatten_cons, List.append_assoc, hrec.2.1]
        exact List.take_append_drop chunk_size buf
    · have hblen : buf.length < chunk_size := by
        rcases Nat.lt_or_ge buf.length chunk_size with h' | h'
        · exact h'
        · exact absurd ⟨h', hcs⟩ h
      simp only [drain_chunks_aux, if_neg h]
      exact ⟨by simp, by simp, hblen⟩

/-- C7 fails on the code: a device delivery of 128 samples (half the 256-sample
chunk required at 8 kHz) is not discarded — it is retained in the accumulation
buffer, and after a second 128-sample delivery those same samples are drained
as part of a full frame and handed to the classifier, so they end up
classified and appended rather than dropped. -/
theorem c7_counterexample :
    (device_callback (get_chunk_size 8000) [] (List.replicate 128 1)).1 = [] ∧
    (device_callback (get_chunk_size 8000) [] (List.replicate 128 1)).2 =
      List.replicate 128 1 ∧
    (device_callback (get_chunk_size 8000) (List.replicate 128 1)
        (List.replicate 128 2)).1 =
      [List.replicate 128 (1 : Int) ++ List.replicate 128 2] ∧
    (device_callback (get_chunk_size 8000) (List.replicate 128 1)
        (List.replicate 128 2)).2 = [] := by
  set_option maxRecDepth 8000 in
  refine ⟨?_, ?_, ?_, ?_⟩ <;> decide

/-- C7 amended: within one device-callback delivery only full
`chunk_size`-sample frames are classified and buffered; a partial trailing
frame is neither padded nor discarded but retained in the accumulation buffer
(shorter than one frame) for the next delivery, and no samples are lost or
duplicated. -/
theorem c7_callback_buffering :
    ∀ (chunk_size : Nat) (data_buffer data : List Int), 0 < chunk_size →
      (∀ c ∈ (device_callback chunk_size data_buffer data).1,
        c.length = chunk_size) ∧
      (device_callback chunk_size data_buffer data).1.flatten ++
        (device_callback chunk_size data_buffer data).2 = data_buffer ++ data ∧
      (device_callback chunk_size data_buffer data).2.length < chunk_size := by
  intro chunk_size data_buffer data hcs
  exact drain_chunks_aux_spec chunk_size hcs (data_buffer ++ data).length
    (data_buffer ++ data) le_rfl

/-- Witness for C7 at a concrete input: chunk size 2, one buffered sample and
three delivered samples give two full frames and one retained sample. -/
theorem c7_callback_buffering_witness :
    0 < 2 ∧
    ((∀ c ∈ (device_callback 2 [1] [2, 3, 4]).1, c.length = 2) ∧
      (device_callback 2 [1] [2, 3, 4]).1.flatten ++
        (device_callback 2 [1] [2, 3, 4]).2 = [1] ++ [2, 3, 4] ∧
      (device_callback 2 [1] [2, 3, 4]).2.length < 2) :=
  ⟨by decide, c7_callback_buffering 2 [1] [2, 3, 4] (by decide)⟩

/-- An index found by `position?` is in range. -/
theorem position?_lt_length {α} {p : α → Bool} :
    ∀ {l : List α} {i : Nat}, position? p l = some i → i < l.length := by
  intro l
  induction l with
  | nil => intro i h; simp [position?] at h
  | cons a l ih =>
    intro i h
    by_cases ha : p a
    · simp [position?, ha] at h
      simp [← h]
    · simp [position?, ha] at h
      obtain ⟨j, hj, hji⟩ := h
      have := ih hj
      simp
      omega

/-- Searching a list whose left part has no hit finds the hit in the
right part, shifted by the left part's length. -/
theorem position?_append_left {α} {p : α → Bool} {A : List α}
    (hA : ∀ a ∈ A, p a = false) (l : List α) :
    position? p (A ++ l) = (position? p l).map (· + A.length) := by
  induction A with
  | nil => cases h : position? p l <;> simp [h]
  | cons a A ih =>
    have ha : p a = false := hA a (List.mem_cons_self a A)
    have ih := ih (fun x hx => hA x (List.mem_cons_of_mem a hx))
    simp only [List.cons_append, position?, ha, Bool.false_eq_true, if_false, ih]
    cases h : position? p l <;> simp [h, ih, Nat.add_assoc]

/-- Lists with no hit have no last hit. -/
theorem rposition?_eq_none {α} {p : α → Bool} {l : List α}
    (h : ∀ a ∈ l, p a = false) : rposition? p l = none := by
  induction l with
  | nil => rfl
  | cons a l ih =>
    have ha : p a = false := h a (List.mem_cons_self a l)
    have ih := ih (fun x hx => h x (List.mem_cons_of_mem a hx))
    simp [rposition?, ih, ha]

/-- A hitless right part does not move `rposition?`. -/
theorem rposition?_append_right {α} {p : α → Bool} {C : List α}
    (hC : ∀ a ∈ C, p a = false) (l : List α) :
    rposition? p (l ++ C) = rposition? p l := by
  induction l with
  | nil => simpa using rposition?_eq_none hC
  | cons a l ih =>
    simp only [List.cons_append, rposition?, List.append_eq, ih]

/-- An all-hit nonempty list has its last index as last hit. -/
theorem rposition?_all_true {α} {p : α → Bool} :
    ∀ {B : List α}, (∀ a ∈ B, p a = true) → B ≠ [] →
      rposition? p B = some (B.length - 1) := by
  intro B
  induction B with
  | nil => intro _ h; exact absurd rfl h
  | cons b B ih =>
    intro hB _
    cases B with
    | nil =>
      have hb : p b = true := hB b (List.mem_cons_self b [])
      simp [rposition?, hb]
    | cons b' B' =>
      have ih := ih (fun x hx => hB x (List.mem_cons_of_mem b hx)) (by simp)
      simp only [rposition?] at ih ⊢
      rw [show (match rposition? p B' with
          | some i => some (i + 1)
          | none => if p b' = true then some 0 else none) =
          some ((b' :: B').length - 1) from ih]
      simp

/-- Appending an all-hit nonempty block puts the last hit at the end. -/
theorem rposition?_append_all_true {α} {p : α → Bool} {B : List α}
    (hB : ∀ a ∈ B, p a = true) (hne : B ≠ []) (A : List α) :
    rposition? p (A ++ B) = some (A.length + B.length - 1) := by
  have hlen : 1 ≤ B.length := List.length_pos.mpr hne
  induction A with
  | nil => simpa using rposition?_all_true hB hne
  | cons a A ih =>
    simp only [List.cons_append, rposition?, List.append_eq, ih]
    simp only [Option.some.injEq, List.length_cons]
    omega

/-- A successful slice is the obvious drop-take window. -/
theorem slice_range_eq {α} (l : List α) (a b : Nat) (hab : a ≤ b)
    (hbl : b ≤ l.length) : slice_range l a b = some ((l.drop a).take (b - a)) :=
  if_pos ⟨hab, hbl⟩

/-- Two adjacent drop-take windows glue into one. -/
theorem slice_glue {α} (l : List α) (a b c : Nat) (hab : a ≤ b) (hbc : b ≤ c) :
    (l.drop a).take (b - a) ++ (l.drop b).take (c - b) =
      (l.drop a).take (c - a) := by
  have h : c - a = (b - a) + (c - b) := by omega
  have h2 : (l.drop a).drop (b - a) = l.drop b := by
    rw [List.drop_drop]
    congr 1
    omega
  rw [h, List.take_add, h2]

/-- When the invalid-range guard does not fire, write_trimmed_audio writes the
single contiguous window from `start_index - P` to
`min (end_index + 1 + P) len`. -/
theorem write_trimmed_eq_window (P cs : Nat) (chunks : List AudioChunkWithVAD)
    (si ei : Nat) (hsi : trim_start_index chunks = si)
    (hei : trim_end_index chunks = ei) (h1 : si < chunks.length)
    (h2 : ei < chunks.length) (h3 : si ≤ ei) :
    write_trimmed_audio P cs chunks =
      some (((chunks.drop (si - P / cs)).take
        (min (ei + 1 + P / cs) chunks.length - (si - P / cs))).flatMap
          (fun c => c.chunk)) := by
  simp only [write_trimmed_audio, hsi, hei]
  rw [if_neg (by omega)]
  simp only [slice_range_eq chunks (si - P / cs) si (Nat.sub_le _ _) (by omega),
    slice_range_eq chunks si (ei + 1) (by omega) (by omega),
    slice_range_eq chunks (ei + 1) (min (ei + 1 + P / cs) chunks.length)
      (Nat.le_min.mpr ⟨Nat.le_add_right _ _, by omega⟩) (Nat.min_le_right _ _)]
  rw [slice_glue chunks (si - P / cs) si (ei + 1) (Nat.sub_le _ _) (by omega),
    slice_glue chunks (si - P / cs) (ei + 1) (min (ei + 1 + P / cs) chunks.length)
      (Nat.le_trans (Nat.sub_le _ _) (by omega))
      (Nat.le_min.mpr ⟨Nat.le_add_right _ _, by omega⟩)]

/-- C9: the trimming routine never panics — for every buffer, including the
empty and all-silence buffers, it produces an output (all slice indices are in
bounds), the start and end indices are clamped into `[0, len-1]`, and on the
empty buffer the invalid-range guard writes nothing. -/
theorem c9_trim_no_panic :
    ∀ (padding_samples chunk_size : Nat) (chunks : List AudioChunkWithVAD),
      (write_trimmed_audio padding_samples chunk_size chunks).isSome = true ∧
      trim_start_index chunks ≤ chunks.length - 1 ∧
      trim_end_index chunks ≤ chunks.length - 1 ∧
      write_trimmed_audio padding_samples chunk_size [] = some [] := by
  intro P cs chunks
  have hstart : trim_start_index chunks ≤ chunks.length - 1 := by
    unfold trim_start_index
    cases h : position? (fun c => c.is_voice) chunks with
    | none => simp
    | some i =>
      have := position?_lt_length h
      simp
      omega
  have hend : trim_end_index chunks ≤ chunks.length - 1 := by
    unfold trim_end_index
    cases h : rposition? (fun c => c.is_voice) chunks with
    | none => simp
    | some i => simp
  refine ⟨?_, hstart, hend, rfl⟩
  by_cases hg : trim_start_index chunks ≥ chunks.length ∨
      trim_end_index chunks ≥ chunks.length ∨
      trim_start_index chunks > trim_end_index chunks
  · simp only [write_trimmed_audio]
    rw [if_pos hg]
    rfl
  · push_neg at hg
    rw [write_trimmed_eq_window P cs chunks (trim_start_index chunks)
      (trim_end_index chunks) rfl rfl hg.1 hg.2.1 hg.2.2]
    rfl

/-- C1 fails on the code at a concrete buffer: two silence frames, one voice
frame, two silence frames, with `padding_samples = 0` (so `P = 0`).  The claim
predicts `min(P,N) = 0` silence frames + the voice frame + `min(P,K) = 0`
silence frames, i.e. exactly `[2]`; but the code's speech slice runs from the
first voice index minus one through the last voice index plus one, so it
writes `[1, 2, 3]`, one silence frame on each side of the voice frame. -/
theorem c1_counterexample :
    write_trimmed_audio 0 (get_chunk_size 48000) c1_example_chunks =
      some [1, 2, 3] ∧
    write_trimmed_audio 0 (get_chunk_size 48000) c1_example_chunks ≠
      some [2] := by
  refine ⟨?_, ?_⟩ <;> decide

/-- C1 amended: for a buffer of N silence frames, M ≥ 1 voice frames and K
silence frames, with `P = padding_samples / chunk_size`, the written output is
the last `min(P+1, N)` leading silence frames, then the M voice frames, then
the first `min(P+1, K)` trailing silence frames, in order and byte-exact (the
`+1` comes from the speech slice already starting one frame before the first
voice frame and ending one frame after the last). -/
theorem c1_trim_output (padding_samples chunk_size : Nat)
    (A B C : List AudioChunkWithVAD)
    (hA : ∀ c ∈ A, c.is_voice = false) (hB : ∀ c ∈ B, c.is_voice = true)
    (hBne : B ≠ []) (hC : ∀ c ∈ C, c.is_voice = false) :
    write_trimmed_audio padding_samples chunk_size (A ++ B ++ C) =
      some ((A.drop (A.length - (padding_samples / chunk_size + 1)) ++ B ++
        C.take (padding_samples / chunk_size + 1)).flatMap (fun c => c.chunk)) := by
  have hM : 1 ≤ B.length := List.length_pos.mpr hBne
  obtain ⟨b, B', rfl⟩ : ∃ b B', B = b :: B' := by
    cases B with
    | nil => exact absurd rfl hBne
    | cons b B' => exact ⟨b, B', rfl⟩
  have hpos : position? (fun c => c.is_voice) (A ++ (b :: B') ++ C) =
      some A.length := by
    rw [List.append_assoc, position?_append_left hA]
    have hb : b.is_voice = true := hB b (List.mem_cons_self b B')
    simp [position?, hb]
  have hrpos : rposition? (fun c => c.is_voice) (A ++ (b :: B') ++ C) =
      some (A.length + (b :: B').length - 1) := by
    rw [rposition?_append_right hC, rposition?_append_all_true hB hBne]
  have hstart : trim_start_index (A ++ (b :: B') ++ C) = A.length - 1 := by
    simp only [trim_start_index, hpos, Option.getD_some]
  have hend : trim_end_index (A ++ (b :: B') ++ C) =
      min (A.length + (b :: B').length) ((A ++ (b :: B') ++ C).length - 1) := by
    simp only [trim_end_index, hrpos]
    simp only [List.length_cons, List.length_append]
    omega
  have h1 : A.length - 1 < (A ++ (b :: B') ++ C).length := by
    simp only [List.length_append, List.length_cons]
    omega
  have h2 : min (A.length + (b :: B').length) ((A ++ (b :: B') ++ C).length - 1) <
      (A ++ (b :: B') ++ C).length := by
    simp only [List.length_append, List.length_cons]
    omega
  have h3 : A.length - 1 ≤
      min (A.length + (b :: B').length) ((A ++ (b :: B') ++ C).length - 1) := by
    simp only [List.length_append, List.length_cons]
    omega
  rw [write_trimmed_eq_window padding_samples chunk_size _ _ _ hstart hend h1 h2 h3]
  congr 1
  congr 1
  generalize padding_samples / chunk_size = Q
  have hlen2 : (A ++ (b :: B') ++ C).length = A.length + (B'.length + 1) + C.length := by
    simp only [List.length_append, List.length_cons]
  rw [hlen2]
  have e1 : A.length - 1 - Q = A.length - (Q + 1) := by omega
  have e2 : min (min (A.length + (b :: B').length)
        (A.length + (B'.length + 1) + C.length - 1) + 1 + Q)
        (A.length + (B'.length + 1) + C.length) - (A.length - (Q + 1)) =
      (A.drop (A.length - (Q + 1))).length +
        ((b :: B').length + min (Q + 1) C.length) := by
    simp only [List.length_drop, List.length_cons]
    omega
  rw [e1, e2]
  rw [List.append_assoc,
    List.drop_append_of_le_length (by omega : A.length - (Q + 1) ≤ A.length)]
  rw [List.take_append, List.take_append]
  have e3 : C.take (min (Q + 1) C.length) = C.take (Q + 1) := by
    rcases Nat.le_total (Q + 1) C.length with h | h
    · rw [Nat.min_eq_left h]
    · rw [Nat.min_eq_right h, List.take_length, List.take_of_length_le h]
  rw [e3, ← List.append_assoc]

/-- Witness for C1's amended statement at a concrete input: the buffer of
c1_counterexample (N = 2, M = 1, K = 2, P = 0) yields the last `min(1,2) = 1`
leading silence frame, the voice frame, and the first trailing silence
frame. -/
theorem c1_trim_output_witness :
    write_trimmed_audio 0 1536 ([⟨[0], false⟩, ⟨[1], false⟩] ++ [⟨[2], true⟩] ++
      [⟨[3], false⟩, ⟨[4], false⟩]) = some [1, 2, 3] := by
  have h := c1_trim_output 0 1536 [⟨[0], false⟩, ⟨[1], false⟩] [⟨[2], true⟩]
    [⟨[3], false⟩, ⟨[4], false⟩] (by decide) (by decide) (by decide) (by decide)
  simpa using h

end Recordr
